import Mathlib

/-!
Verification development for the Codle scaffold generator.

This file shallowly embeds the parts of the repository that the checked
properties concern: the signature parser (`src/models/signature.rs`), the
type translator and value renderer (`src/codegen.rs`, mirrored by
`src/lang/*.rs`), the test generator (`src/testgen.rs`), and the
test-output normalizer (`src/testrun.rs`, mirrored by `src/lang/mod.rs`,
`src/lang/rust.rs`, `src/lang/python.rs`, `src/lang/c.rs`).

Strings are modelled as `List Char` (`Str` below); Rust's `&str` helper
methods used by the source are given small executable models.  JSON
numbers (`serde_json::Number`) are modelled as either an integer (`Int`)
or a float, the float represented as an exact rational: every test
fixture literal is a finite decimal, and none of the verified properties
depend on binary rounding of non-integral values.
-/

namespace Codle

/-- Strings as explicit character lists, so that all operations are
plain structural recursion and kernel-reducible. -/
abbrev Str := List Char

/-- Whitespace test used by `str::trim` / `split_whitespace`.  Rust's
`char::is_whitespace` accepts all Unicode whitespace; the source only
ever meets the ASCII ones. -/
def isWs (c : Char) : Bool :=
  c = ' ' || c = '\t' || c = '\n' || c = '\r'

/-- `str::trim_start`. -/
def trimStart (s : Str) : Str := s.dropWhile isWs

/-- `str::trim_end`. -/
def trimEnd (s : Str) : Str := (s.reverse.dropWhile isWs).reverse

/-- `str::trim`. -/
def trim (s : Str) : Str := trimEnd (trimStart s)

/-- `str::strip_prefix` (named without the source's suffix for lexical
reasons): returns the remainder when `pat` is a prefix of `s`. -/
def stripPfx (pat s : Str) : Option Str :=
  match pat, s with
  | [], s => some s
  | _ :: _, [] => none
  | p :: ps, c :: cs => if p = c then stripPfx ps cs else none

/-- `str::strip_suffix` for a single character. -/
def stripSfxChar (c : Char) (s : Str) : Option Str :=
  match s.reverse with
  | [] => none
  | last :: restRev => if last = c then some restRev.reverse else none

/-- `str::find(char)`: byte index of the first occurrence.  On `Str`
the character index and the byte index agree for the ASCII delimiters
the source searches for. -/
def idxOf (c : Char) : Str → Option Nat
  | [] => none
  | x :: xs =>
    if x = c then some 0
    else (idxOf c xs).map (· + 1)

/-- `str::contains(&str)`: substring containment. -/
def containsStr : Str → Str → Bool
  | [], pat => List.isPrefixOf pat []
  | c :: rest, pat => List.isPrefixOf pat (c :: rest) || containsStr rest pat

/-- `str::starts_with`. -/
def startsWithStr (s pat : Str) : Bool := List.isPrefixOf pat s

/-- `str::ends_with`. -/
def endsWithStr (s pat : Str) : Bool := List.isSuffixOf pat s

/-- `str::split(char)`: keeps empty segments, as Rust's `split` does. -/
def splitOnChar (c : Char) : Str → List Str
  | [] => [[]]
  | x :: xs =>
    if x = c then [] :: splitOnChar c xs
    else
      match splitOnChar c xs with
      | [] => [[x]]
      | p :: ps => (x :: p) :: ps

/-- Helper for `split_whitespace`: `acc` is the current token, reversed. -/
def splitWsAux : Str → Str → List Str
  | [], acc => if acc.isEmpty then [] else [acc.reverse]
  | c :: rest, acc =>
    if isWs c then
      if acc.isEmpty then splitWsAux rest []
      else acc.reverse :: splitWsAux rest []
    else splitWsAux rest (c :: acc)

/-- `str::split_whitespace`: whitespace-separated tokens, no empties. -/
def splitWs (s : Str) : List Str := splitWsAux s []

/-- `str::trim_end_matches(',')`: strips every trailing comma. -/
def trimEndCommas (s : Str) : Str :=
  (s.reverse.dropWhile (· = ',')).reverse

/-- Strip a single trailing carriage return, as `str::lines` does. -/
def stripCR (s : Str) : Str :=
  match s.reverse with
  | '\r' :: restRev => restRev.reverse
  | _ => s

/-- `str::lines`: split at newlines, the final line ending optional,
with a trailing `\r` removed from each line. -/
def linesOf (s : Str) : List Str :=
  if s.isEmpty then []
  else
    let parts := splitOnChar '\n' s
    let parts := if parts.getLast? = some [] then parts.dropLast else parts
    parts.map stripCR

def isDigit (c : Char) : Bool := '0' ≤ c && c ≤ '9'

def digitsToNat (s : Str) : Nat :=
  s.foldl (fun acc c => acc * 10 + (c.toNat - '0'.toNat)) 0

/-- `str::parse::<usize>()`: optional leading `+`, then only digits.
Overflow is not modelled (the transcripts parsed carry small counts). -/
def parseNat (s : Str) : Option Nat :=
  let s := match s with
    | '+' :: r => r
    | _ => s
  if s.isEmpty then none
  else if s.all isDigit then some (digitsToNat s) else none

def digitChar (n : Nat) : Char := Char.ofNat (n % 10 + '0'.toNat)

/-- Decimal digits of a natural number, with structural fuel so the
definition is kernel-reducible.  The fuel `natToStr` supplies is always
sufficient, since a number needs at most `n + 1` digits. -/
def natDigitsAux : Nat → Nat → Str
  | 0, _ => []
  | fuel + 1, n =>
    if n < 10 then [digitChar n]
    else natDigitsAux fuel (n / 10) ++ [digitChar n]

/-- Rust `Display` for unsigned integers. -/
def natToStr (n : Nat) : Str := natDigitsAux (n + 1) n

/-- Rust `Display` for signed integers. -/
def intToStr (i : Int) : Str :=
  if i < 0 then '-' :: natToStr i.natAbs else natToStr i.natAbs

/-- `Vec::join` / `slice::join` on rendered fragments. -/
def joinSep (sep : Str) : List Str → Str
  | [] => []
  | [x] => x
  | x :: y :: rest => x ++ sep ++ joinSep sep (y :: rest)

/-! ## The JSON value model (`serde_json::Value`)

`serde_json::Number` is one of an integer representation or a float.
The float is modelled as an exact rational (see the header comment). -/

inductive JNum where
  | int (i : Int)
  | float (q : ℚ)
  deriving DecidableEq

inductive Json where
  | null
  | bool (b : Bool)
  | num (n : JNum)
  | str (s : Str)
  | arr (elems : List Json)
  | obj (fields : List (Str × Json))

namespace Json

/-- `Value::as_i64`: only integer-represented numbers answer. -/
def as_i64 : Json → Option Int
  | .num (.int i) => some i
  | _ => none

/-- `Value::as_f64`: any number answers. -/
def as_f64 : Json → Option ℚ
  | .num (.int i) => some (i : ℚ)
  | .num (.float q) => some q
  | _ => none

/-- `Value::as_bool`. -/
def as_bool : Json → Option Bool
  | .bool b => some b
  | _ => none

/-- `Value::as_str`. -/
def as_str : Json → Option Str
  | .str s => some s
  | _ => none

/-- `Value::as_array`. -/
def as_array : Json → Option (List Json)
  | .arr elems => some elems
  | _ => none

/-- `Value::as_object`. -/
def as_object : Json → Option (List (Str × Json))
  | .obj fields => some fields
  | _ => none

end Json

/-- `Map::get` on a JSON object (first binding for the key wins). -/
def objGet (fields : List (Str × Json)) (key : Str) : Option Json :=
  (fields.find? (fun kv => kv.1 = key)).map (·.2)

/-! ## The type algebra (`src/models/signature.rs`) -/

inductive RustType where
  | I32
  | F64
  | Usize
  | Bool
  | String
  | Char
  | Vec (inner : RustType)
  | MutRef (inner : RustType)
  | Void
  deriving DecidableEq

structure Param where
  name : Str
  ty : RustType
  deriving DecidableEq

structure FunctionSignature where
  name : Str
  params : List Param
  return_type : RustType
  deriving DecidableEq

/-! ## The signature parser (`src/models/signature.rs`) -/

/-- `find_matching_paren`'s scan, over the characters from the opening
parenthesis on: depth-counting with an `i32` depth, returning the
offset of the parenthesis that closes the match. -/
def findMatchingParenAux : Str → Int → Nat → Option Nat
  | [], _, _ => none
  | c :: rest, depth, i =>
    if c = '(' then findMatchingParenAux rest (depth + 1) (i + 1)
    else if c = ')' then
      if depth - 1 = 0 then some i
      else findMatchingParenAux rest (depth - 1) (i + 1)
    else findMatchingParenAux rest depth (i + 1)

/-- `find_matching_paren(s, open)`: index (into `s`) of the parenthesis
matching the one at index `open`. -/
def find_matching_paren (s : Str) (opn : Nat) : Except Str Nat :=
  match findMatchingParenAux (s.drop opn) 0 0 with
  | some i => .ok (opn + i)
  | none => .error "Unmatched parenthesis".data

/-- `split_respecting_angle_brackets`: split on commas at angle-bracket
depth zero only (depth is an `i32` and may go negative, as in the
source).  `acc` is the current segment, reversed. -/
def splitAngleAux : Str → Int → Str → List Str
  | [], _, acc => [acc.reverse]
  | c :: rest, depth, acc =>
    if c = '<' then splitAngleAux rest (depth + 1) (c :: acc)
    else if c = '>' then splitAngleAux rest (depth - 1) (c :: acc)
    else if c = ',' && depth = 0 then acc.reverse :: splitAngleAux rest depth []
    else splitAngleAux rest depth (c :: acc)

def split_respecting_angle_brackets (s : Str) : List Str :=
  splitAngleAux s 0 []

/-- `parse_type`, with structural fuel so the definition is
kernel-reducible.  Each recursive call in the source strictly shrinks
the string (by at least the `&mut ` prefix or the `Vec<`/`>`
delimiters), so the fuel `parse_type` supplies is always sufficient. -/
def parseTypeAux : Nat → Str → Except Str RustType
  | 0, ty_str => .error ("Unknown type: '".data ++ ty_str ++ "'".data)
  | fuel + 1, ty_str =>
    let ty_str := trim ty_str
    match stripPfx "&mut ".data ty_str with
    | some inner => (parseTypeAux fuel (trim inner)).map .MutRef
    | none =>
      match stripPfx "Vec<".data ty_str with
      | some rest =>
        match stripSfxChar '>' rest with
        | some inner => (parseTypeAux fuel (trim inner)).map .Vec
        | none => .error ("Unclosed Vec<> in type: '".data ++ ty_str ++ "'".data)
      | none =>
        if ty_str = "i32".data then .ok .I32
        else if ty_str = "f64".data then .ok .F64
        else if ty_str = "usize".data then .ok .Usize
        else if ty_str = "bool".data then .ok .Bool
        else if ty_str = "String".data then .ok .String
        else if ty_str = "char".data then .ok .Char
        else .error ("Unknown type: '".data ++ ty_str ++ "'".data)

def parse_type (ty_str : Str) : Except Str RustType :=
  parseTypeAux (ty_str.length + 1) ty_str

/-- The per-segment loop body of `parse_params`: empty segments are
skipped, every other segment is split at its first `:`. -/
def parseParamsGo : List Str → Except Str (List Param)
  | [] => .ok []
  | part :: rest =>
    let part := trim part
    if part.isEmpty then parseParamsGo rest
    else
      match idxOf ':' part with
      | none => .error ("Missing ':' in parameter: '".data ++ part ++ "'".data)
      | some colon_pos =>
        let name := trim (part.take colon_pos)
        let ty_str := trim (part.drop (colon_pos + 1))
        match parse_type ty_str with
        | .error e => .error e
        | .ok ty => (parseParamsGo rest).map (⟨name, ty⟩ :: ·)

/-- `parse_params`. -/
def parse_params (params_str : Str) : Except Str (List Param) :=
  let trimmed := trim params_str
  if trimmed.isEmpty then .ok []
  else parseParamsGo (split_respecting_angle_brackets trimmed)

/-- `parse_signature`. -/
def parse_signature (sig : Str) : Except Str FunctionSignature :=
  let sig := trim sig
  match stripPfx "fn ".data sig with
  | none => .error "Signature must start with 'fn '".data
  | some rest =>
    match idxOf '(' rest with
    | none => .error "Missing opening parenthesis".data
    | some paren_open =>
      let name := trim (rest.take paren_open)
      match find_matching_paren rest paren_open with
      | .error e => .error e
      | .ok paren_close =>
        let params_str := (rest.drop (paren_open + 1)).take (paren_close - (paren_open + 1))
        match parse_params params_str with
        | .error e => .error e
        | .ok params =>
          let after_parens := trim (rest.drop (paren_close + 1))
          match
            (if startsWithStr after_parens "->".data then
              parse_type (trim (after_parens.drop 2))
            else .ok .Void) with
          | .error e => .error e
          | .ok return_type => .ok ⟨name, params, return_type⟩

/-! ## Targets (`src/language.rs`) -/

inductive Language where
  | Rs
  | Py
  | Kt
  | Java
  | C
  | Cpp
  deriving DecidableEq

/-! ## The type translator (`src/codegen.rs`, `src/lang/*.rs`) -/

def translate_type_rs : RustType → Str
  | .I32 => "i32".data
  | .F64 => "f64".data
  | .Usize => "usize".data
  | .Bool => "bool".data
  | .String => "String".data
  | .Char => "char".data
  | .Vec inner => "Vec<".data ++ translate_type_rs inner ++ ">".data
  | .MutRef inner => "&mut ".data ++ translate_type_rs inner
  | .Void => "()".data

def translate_type_py : RustType → Str
  | .I32 => "int".data
  | .Usize => "int".data
  | .F64 => "float".data
  | .Bool => "bool".data
  | .String => "str".data
  | .Char => "str".data
  | .Vec inner => "list[".data ++ translate_type_py inner ++ "]".data
  | .MutRef inner => translate_type_py inner
  | .Void => "None".data

def translate_type_kt : RustType → Str
  | .I32 => "Int".data
  | .Usize => "Int".data
  | .F64 => "Double".data
  | .Bool => "Boolean".data
  | .String => "String".data
  | .Char => "Char".data
  | .Vec inner => "MutableList<".data ++ translate_type_kt inner ++ ">".data
  | .MutRef inner => translate_type_kt inner
  | .Void => "Unit".data

def translate_type_java : RustType → Str
  | .I32 => "int".data
  | .Usize => "int".data
  | .F64 => "double".data
  | .Bool => "boolean".data
  | .String => "String".data
  | .Char => "char".data
  | .Vec inner => translate_type_java inner ++ "[]".data
  | .MutRef inner => translate_type_java inner
  | .Void => "void".data

def translate_type_c : RustType → Str
  | .I32 => "int".data
  | .F64 => "double".data
  | .Usize => "size_t".data
  | .Bool => "bool".data
  | .String => "char*".data
  | .Char => "char".data
  | .Vec inner => translate_type_c inner ++ "*".data
  | .MutRef inner => translate_type_c inner
  | .Void => "void".data

def translate_type_cpp : RustType → Str
  | .I32 => "int".data
  | .F64 => "double".data
  | .Usize => "size_t".data
  | .Bool => "bool".data
  | .String => "std::string".data
  | .Char => "char".data
  | .Vec inner => "std::vector<".data ++ translate_type_cpp inner ++ ">".data
  | .MutRef inner => translate_type_cpp inner ++ "&".data
  | .Void => "void".data

/-- `translate_type` dispatch. -/
def translate_type (ty : RustType) (lang : Language) : Str :=
  match lang with
  | .Rs => translate_type_rs ty
  | .Py => translate_type_py ty
  | .Kt => translate_type_kt ty
  | .Java => translate_type_java ty
  | .C => translate_type_c ty
  | .Cpp => translate_type_cpp ty

/-! ## The value renderer (`src/codegen.rs`, `src/lang/*.rs`) -/

def boolToStr (b : Bool) : Str :=
  if b then "true".data else "false".data

/-- Fractional digits of `0 ≤ q < 1`, exact expansion, fuel-bounded. -/
def fracDigitsAux : Nat → ℚ → Str
  | 0, _ => []
  | fuel + 1, q =>
    if q = 0 then []
    else
      let d := (q * 10).floor
      digitChar d.toNat :: fracDigitsAux fuel (q * 10 - (d : ℚ))

/-- Models Rust's `Display` (`format!("\x7b\x7d", n)`) for a
*non-integral* float.  Every finite `f64` has a power-of-two
denominator, hence a finite decimal expansion well within the fuel.
Rust prints the shortest decimal that round-trips; this model prints
the exact expansion.  The renderers reach this function only on values
with a non-zero fractional part, and no property proved below depends
on its digits. -/
def displayRat (q : ℚ) : Str :=
  let sign : Str := if q < 0 then ['-'] else []
  let a := |q|
  let fp := a - (a.floor : ℚ)
  sign ++ natToStr a.floor.toNat ++ ['.'] ++ fracDigitsAux 1100 fp

/-- The `F64` arm shared verbatim by all six renderers:
`n.fract() == 0.0` holds for a finite float exactly when its value is
an integer, i.e. when the rational has denominator 1, in which case
`format!("\x7b:.1\x7d", n)` prints the integer digits followed by
`.0`. -/
def renderF64 (value : Json) : Str :=
  let n : ℚ := (value.as_f64).getD 0
  if n.den = 1 then intToStr n.num ++ ".0".data
  else displayRat n

/-- `render_value_rs` (`src/lang/rust.rs`).  The type argument comes
first so that the definition is structural recursion on the type and
kernel-reducible; the source takes `(value, ty)`. -/
def render_value_rs : RustType → Json → Str
  | .I32 => fun value => intToStr ((value.as_i64).getD 0)
  | .Usize => fun value => intToStr ((value.as_i64).getD 0)
  | .F64 => fun value => renderF64 value
  | .Bool => fun value => boolToStr ((value.as_bool).getD false)
  | .String => fun value =>
      "\"".data ++ (value.as_str).getD [] ++ "\".to_string()".data
  | .Char => fun value =>
      let s := (value.as_str).getD "?".data
      ['\'', s.headD '?', '\'']
  | .Vec inner => fun value =>
      match value.as_array with
      | some arr =>
        "vec![".data ++ joinSep ", ".data (arr.map (render_value_rs inner)) ++ "]".data
      | none => "vec![]".data
  | .MutRef inner => fun value => render_value_rs inner value
  | .Void => fun _ => "()".data

/-- `render_value_py` (`src/lang/python.rs`). -/
def render_value_py : RustType → Json → Str
  | .I32 => fun value => intToStr ((value.as_i64).getD 0)
  | .Usize => fun value => intToStr ((value.as_i64).getD 0)
  | .F64 => fun value => renderF64 value
  | .Bool => fun value =>
      if (value.as_bool).getD false then "True".data else "False".data
  | .String => fun value => "\"".data ++ (value.as_str).getD [] ++ "\"".data
  | .Char => fun value => "\"".data ++ (value.as_str).getD "?".data ++ "\"".data
  | .Vec inner => fun value =>
      match value.as_array with
      | some arr =>
        "[".data ++ joinSep ", ".data (arr.map (render_value_py inner)) ++ "]".data
      | none => "[]".data
  | .MutRef inner => fun value => render_value_py inner value
  | .Void => fun _ => "None".data

/-- `render_value_kt` (`src/lang/kotlin.rs`). -/
def render_value_kt : RustType → Json → Str
  | .I32 => fun value => intToStr ((value.as_i64).getD 0)
  | .Usize => fun value => intToStr ((value.as_i64).getD 0)
  | .F64 => fun value => renderF64 value
  | .Bool => fun value => boolToStr ((value.as_bool).getD false)
  | .String => fun value => "\"".data ++ (value.as_str).getD [] ++ "\"".data
  | .Char => fun value =>
      let s := (value.as_str).getD "?".data
      ['\'', s.headD '?', '\'']
  | .Vec inner => fun value =>
      match value.as_array with
      | some arr =>
        "mutableListOf(".data ++ joinSep ", ".data (arr.map (render_value_kt inner)) ++ ")".data
      | none => "mutableListOf()".data
  | .MutRef inner => fun value => render_value_kt inner value
  | .Void => fun _ => "Unit".data

/-- `render_value_java` (`src/lang/java.rs`). -/
def render_value_java : RustType → Json → Str
  | .I32 => fun value => intToStr ((value.as_i64).getD 0)
  | .Usize => fun value => intToStr ((value.as_i64).getD 0)
  | .F64 => fun value => renderF64 value
  | .Bool => fun value => boolToStr ((value.as_bool).getD false)
  | .String => fun value => "\"".data ++ (value.as_str).getD [] ++ "\"".data
  | .Char => fun value =>
      let s := (value.as_str).getD "?".data
      ['\'', s.headD '?', '\'']
  | .Vec inner => fun value =>
      match value.as_array with
      | some arr =>
        "new ".data ++ translate_type_java inner ++ "[] \x7b".data ++
          joinSep ", ".data (arr.map (render_value_java inner)) ++ "\x7d".data
      | none => "new ".data ++ translate_type_java inner ++ "[] \x7b\x7d".data
  | .MutRef inner => fun value => render_value_java inner value
  | .Void => fun _ => []

/-- `render_value_c` (`src/lang/c.rs`). -/
def render_value_c : RustType → Json → Str
  | .I32 => fun value => intToStr ((value.as_i64).getD 0)
  | .Usize => fun value => intToStr ((value.as_i64).getD 0)
  | .F64 => fun value => renderF64 value
  | .Bool => fun value =>
      if (value.as_bool).getD false then "true".data else "false".data
  | .String => fun value => "\"".data ++ (value.as_str).getD [] ++ "\"".data
  | .Char => fun value =>
      let s := (value.as_str).getD "?".data
      ['\'', s.headD '?', '\'']
  | .Vec inner => fun value =>
      match value.as_array with
      | some arr =>
        "\x7b".data ++ joinSep ", ".data (arr.map (render_value_c inner)) ++ "\x7d".data
      | none => "\x7b\x7d".data
  | .MutRef inner => fun value => render_value_c inner value
  | .Void => fun _ => []

/-- `render_value_cpp` (`src/lang/cpp.rs`). -/
def render_value_cpp : RustType → Json → Str
  | .I32 => fun value => intToStr ((value.as_i64).getD 0)
  | .Usize => fun value => intToStr ((value.as_i64).getD 0)
  | .F64 => fun value => renderF64 value
  | .Bool => fun value => boolToStr ((value.as_bool).getD false)
  | .String => fun value => "\"".data ++ (value.as_str).getD [] ++ "\"".data
  | .Char => fun value =>
      let s := (value.as_str).getD "?".data
      ['\'', s.headD '?', '\'']
  | .Vec inner => fun value =>
      match value.as_array with
      | some arr =>
        "\x7b".data ++ joinSep ", ".data (arr.map (render_value_cpp inner)) ++ "\x7d".data
      | none => "\x7b\x7d".data
  | .MutRef inner => fun value => render_value_cpp inner value
  | .Void => fun _ => []

/-- `render_value` dispatch (source argument order `(value, ty, lang)`). -/
def render_value (value : Json) (ty : RustType) (lang : Language) : Str :=
  match lang with
  | .Rs => render_value_rs ty value
  | .Py => render_value_py ty value
  | .Kt => render_value_kt ty value
  | .Java => render_value_java ty value
  | .C => render_value_c ty value
  | .Cpp => render_value_cpp ty value

/-! ## Test generation (`src/testgen.rs`) -/

structure TestCase where
  input : Json
  expected : Json

def isMutRefTy : RustType → Bool
  | .MutRef _ => true
  | _ => false

/-- `unwrap_mut_ref`. -/
def unwrap_mut_ref : RustType → RustType
  | .MutRef inner => inner
  | other => other

/-- `is_void_with_mut_ref`: the void-with-output-parameter classifier. -/
def is_void_with_mut_ref (sig : FunctionSignature) : Bool :=
  sig.return_type = RustType.Void && sig.params.any (fun p => isMutRefTy p.ty)

/-- Concatenation of emitted fragments (the source pushes onto one
`String`). -/
def catAll (l : List Str) : Str := l.foldr (· ++ ·) []

/-- One declaration line of the void-with-mut-ref arm of
`generate_rust_tests`. -/
def rustDeclVM (inputs : List (Str × Json)) (p : Param) : Str :=
  match p.ty with
  | .MutRef inner =>
    match objGet inputs p.name with
    | some val =>
      "        let mut ".data ++ p.name ++ " = ".data ++
        render_value val inner .Rs ++ ";\n".data
    | none => []
  | _ =>
    match objGet inputs p.name with
    | some val =>
      "        let ".data ++ p.name ++ " = ".data ++
        render_value val p.ty .Rs ++ ";\n".data
    | none => []

/-- The call line of the void-with-mut-ref arm. -/
def rustCallVM (sig : FunctionSignature) : Str :=
  let call_args := sig.params.map (fun p =>
    if isMutRefTy p.ty then "&mut ".data ++ p.name else p.name)
  "        ".data ++ sig.name ++ "(".data ++ joinSep ", ".data call_args ++ ");\n".data

/-- The assertion of the void-with-mut-ref arm: against the first
mutable-reference parameter's post-call value. -/
def rustAssertVM (sig : FunctionSignature) (test : TestCase) : Str :=
  match sig.params.find? (fun p => isMutRefTy p.ty) with
  | some p =>
    "        assert_eq!(".data ++ p.name ++ ", ".data ++
      render_value test.expected (unwrap_mut_ref p.ty) .Rs ++ ");\n".data
  | none => []

/-- One declaration line of the value-returning arm. -/
def rustDeclRet (inputs : List (Str × Json)) (p : Param) : Str :=
  match objGet inputs p.name with
  | some val =>
    "        let ".data ++ p.name ++ " = ".data ++
      render_value val p.ty .Rs ++ ";\n".data
  | none => []

/-- The call line of the value-returning arm. -/
def rustCallRet (sig : FunctionSignature) (inputs : List (Str × Json)) : Str :=
  let args := sig.params.filterMap (fun p =>
    (objGet inputs p.name).map (fun _ => p.name))
  "        let result = ".data ++ sig.name ++ "(".data ++
    joinSep ", ".data args ++ ");\n".data

/-- The assertion of the value-returning arm: against the function's
return value, rendered at the signature's return type. -/
def rustAssertRet (sig : FunctionSignature) (test : TestCase) : Str :=
  "        assert_eq!(result, ".data ++
    render_value test.expected sig.return_type .Rs ++ ");\n".data

/-- The body of one generated Rust test function
(`generate_rust_tests`, per-test loop). -/
def rust_test_body (sig : FunctionSignature) (test : TestCase) : Str :=
  match test.input.as_object with
  | none => []
  | some inputs =>
    if is_void_with_mut_ref sig then
      (catAll (sig.params.map (rustDeclVM inputs)) ++ rustCallVM sig) ++
        rustAssertVM sig test
    else
      (catAll (sig.params.map (rustDeclRet inputs)) ++ rustCallRet sig inputs) ++
        rustAssertRet sig test

/-! ## The test-output normalizer (`src/testrun.rs`, `src/lang/mod.rs`) -/

structure TestSummary where
  passed : Nat
  failed : Nat
  total : Nat
  output : Str
  deriving DecidableEq

/-- The `test result:` summary-line scan of `parse_rust_output`:
`passed` from the first numeric token before the first `;`, `failed`
from the last `;`-segment containing `failed` that has a numeric
token. -/
def scanRustSummary (line : Str) : Nat × Nat :=
  let segments := splitOnChar ';' line
  let passed :=
    match segments.head? with
    | some passed_part =>
      match (splitWs passed_part).find? (fun s => (parseNat s).isSome) with
      | some num_str => (parseNat num_str).getD 0
      | none => 0
    | none => 0
  let failed := segments.foldl (fun failed part =>
    if containsStr part "failed".data then
      match (splitWs part).find? (fun s => (parseNat s).isSome) with
      | some num_str => (parseNat num_str).getD 0
      | none => failed
    else failed) 0
  (passed, failed)

/-- The fallback per-line count of `parse_rust_output`. -/
def rustFallbackStep (pf : Nat × Nat) (line : Str) : Nat × Nat :=
  if containsStr line " ... ok".data then (pf.1 + 1, pf.2)
  else if containsStr line " ... FAILED".data then (pf.1, pf.2 + 1)
  else pf

/-- `parse_rust_output` (`src/testrun.rs` / `src/lang/rust.rs`). -/
def parse_rust_output (combined : Str) : Except Str TestSummary :=
  let lines := linesOf combined
  let pf :=
    match lines.find? (fun l => startsWithStr l "test result:".data) with
    | some line => scanRustSummary line
    | none => (0, 0)
  let pf := if pf.1 = 0 && pf.2 = 0 then lines.foldl rustFallbackStep pf else pf
  .ok ⟨pf.1, pf.2, pf.1 + pf.2, combined⟩

/-- The per-line token scan of `parse_pytest_output`: on every line
containing `passed` or `failed`, a token equal to `passed` (resp.
`failed`) preceded by a numeric token overwrites the count. -/
def scanPytestLine (pf : Nat × Nat) (line : Str) : Nat × Nat :=
  if containsStr line "passed".data || containsStr line "failed".data then
    let parts := splitWs line
    parts.enum.foldl (fun (pf : Nat × Nat) ip =>
      let i := ip.1
      let part := ip.2
      let pf :=
        if part = "passed".data && 0 < i then
          match (parts.get? (i - 1)).bind parseNat with
          | some n => (n, pf.2)
          | none => pf
        else pf
      if part = "failed".data && 0 < i then
        match (parts.get? (i - 1)).bind parseNat with
        | some n => (pf.1, n)
        | none => pf
      else pf) pf
  else pf

/-- The fallback per-line count of `parse_pytest_output`. -/
def pytestFallbackStep (pf : Nat × Nat) (line : Str) : Nat × Nat :=
  if containsStr line "PASSED".data then (pf.1 + 1, pf.2)
  else if containsStr line "FAILED".data then (pf.1, pf.2 + 1)
  else pf

/-- `parse_pytest_output` (`src/testrun.rs` / `src/lang/python.rs`). -/
def parse_pytest_output (combined : Str) : Except Str TestSummary :=
  let lines := linesOf combined
  let pf := lines.foldl scanPytestLine (0, 0)
  let pf := if pf.1 = 0 && pf.2 = 0 then lines.foldl pytestFallbackStep pf else pf
  .ok ⟨pf.1, pf.2, pf.1 + pf.2, combined⟩

/-- The `N tests completed, M failed` scan of `parse_gradle_output`:
the *tool-reported* total is taken from the token before `tests`, the
failed count from the (comma-trimmed) token before `failed`. -/
def scanGradleSummary (line : Str) : Nat × Nat :=
  let parts := splitWs line
  parts.enum.foldl (fun (tf : Nat × Nat) ip =>
    let i := ip.1
    let part := ip.2
    let tf :=
      if part = "tests".data && 0 < i then
        match (parts.get? (i - 1)).bind parseNat with
        | some n => (n, tf.2)
        | none => tf
      else tf
    if part = "failed".data && 0 < i then
      match ((parts.get? (i - 1)).map trimEndCommas).bind parseNat with
      | some n => (tf.1, n)
      | none => tf
    else tf) (0, 0)

/-- The fallback per-line count of `parse_gradle_output`: only trimmed
lines that contain `()` and end with a marker count. -/
def gradleFallbackStep (pf : Nat × Nat) (line : Str) : Nat × Nat :=
  let t := trim line
  if containsStr t "()".data then
    if endsWithStr t "PASSED".data then (pf.1 + 1, pf.2)
    else if endsWithStr t "FAILED".data then (pf.1, pf.2 + 1)
    else pf
  else pf

/-- `parse_gradle_output` (`src/testrun.rs` / `src/lang/mod.rs`).  The
primary path keeps the tool-reported total and derives
`passed = total.saturating_sub(failed)`; the fallback path counts
per-test `PASSED`/`FAILED` lines and sets `total = passed + failed`. -/
def parse_gradle_output (combined : Str) : Except Str TestSummary :=
  let lines := linesOf combined
  let tf :=
    match lines.find? (fun l => containsStr l "tests completed".data) with
    | some line => scanGradleSummary line
    | none => (0, 0)
  let total := tf.1
  let failed := tf.2
  let passed := total - failed
  if total = 0 then
    let pf := lines.foldl gradleFallbackStep (passed, failed)
    .ok ⟨pf.1, pf.2, pf.1 + pf.2, combined⟩
  else .ok ⟨passed, failed, total, combined⟩

/-- The `X/Y tests passed` scan of `parse_c_output`: `passed` from
before the slash, `failed` derived as `Y.saturating_sub(passed)`. -/
def scanCSummary (line : Str) : Nat × Nat :=
  let parts := splitOnChar '/' line
  if 2 ≤ parts.length then
    let passed := (parseNat (trim ((parts.get? 0).getD []))).getD 0
    let failed :=
      match parseNat ((splitWs ((parts.get? 1).getD [])).head?.getD "0".data) with
      | some t => t - passed
      | none => 0
    (passed, failed)
  else (0, 0)

/-- The fallback per-line count of `parse_c_output`. -/
def cFallbackStep (pf : Nat × Nat) (line : Str) : Nat × Nat :=
  if containsStr line ": PASS".data then (pf.1 + 1, pf.2)
  else if containsStr line ": FAIL".data then (pf.1, pf.2 + 1)
  else pf

/-- `parse_c_output` (`src/testrun.rs` / `src/lang/c.rs`). -/
def parse_c_output (combined : Str) : Except Str TestSummary :=
  let lines := linesOf combined
  let pf :=
    match lines.find? (fun l => containsStr l "tests passed".data) with
    | some line => scanCSummary line
    | none => (0, 0)
  let pf := if pf.1 = 0 && pf.2 = 0 then lines.foldl cFallbackStep pf else pf
  .ok ⟨pf.1, pf.2, pf.1 + pf.2, combined⟩

/-- The per-target dispatch of `parse_output` (`src/testrun.rs`). -/
def parse_output (lang : Language) (combined : Str) : Except Str TestSummary :=
  match lang with
  | .Rs => parse_rust_output combined
  | .Py => parse_pytest_output combined
  | .Kt => parse_gradle_output combined
  | .Java => parse_gradle_output combined
  | .C => parse_c_output combined
  | .Cpp => parse_c_output combined

/-! ## Theorems -/

/-- C6: for every value, every inner type and every target, rendering a
value against `MutableRef(T)` yields exactly the string rendered
against `T`: the wrapper is transparent for value-literal rendering. -/
theorem mutref_render_transparent (v : Json) (t : RustType) (lang : Language) :
    render_value v (.MutRef t) lang = render_value v t lang := by
  cases lang <;> rfl

/-- C8: for every type in the closed union and every target,
`translate_type` is deterministic (it is a pure function of its
arguments, so two calls agree) and never produces an empty string —
in particular not outside `Unit`, as the specification requires. -/
theorem translate_type_deterministic_nonempty (ty : RustType) (lang : Language) :
    translate_type ty lang = translate_type ty lang ∧
      0 < (translate_type ty lang).length := by
  refine ⟨rfl, ?_⟩
  induction ty <;> cases lang <;>
    simp_all [translate_type, translate_type_rs, translate_type_py, translate_type_kt,
      translate_type_java, translate_type_c, translate_type_cpp]

/-- C4: for every target, the JSON number `5` (integer-represented) and
the JSON number `5.0` (float-represented) render identically against
`Float64` — more generally any integer and its float image do — and
every number whose fractional part is exactly zero is rendered with a
fractional-point marker. -/
theorem float_render_integral_marker (lang : Language) (i : Int) :
    render_value (.num (.int i)) .F64 lang
        = render_value (.num (.float (i : ℚ))) .F64 lang ∧
      ∀ q : ℚ, q.den = 1 → '.' ∈ render_value (.num (.float q)) .F64 lang := by
  constructor
  · cases lang <;> rfl
  · intro q hq
    cases lang <;>
      simp [render_value, render_value_rs, render_value_py, render_value_kt,
        render_value_java, render_value_c, render_value_cpp, renderF64,
        Json.as_f64, hq]

/-- C4 witness at the concrete numbers `5` and `5.0` on the Rust
target. -/
theorem float_render_integral_marker_witness :
    render_value (.num (.int 5)) .F64 .Rs
        = render_value (.num (.float ((5 : Int) : ℚ))) .F64 .Rs ∧
      '.' ∈ render_value (.num (.float ((5 : Int) : ℚ))) .F64 .Rs :=
  ⟨(float_render_integral_marker .Rs 5).1,
    (float_render_integral_marker .Rs 5).2 ((5 : Int) : ℚ) (by decide)⟩

/-- C2 counterexample: the Python renderer does *not* extract the first
scalar of the string rendered against `Char`: it emits the whole
string, and on the empty string it emits an empty string literal
rather than the `?` sentinel. -/
theorem char_render_py_counterexample :
    render_value (.str "ab".data) .Char .Py = "\"ab\"".data ∧
      render_value (.str []) .Char .Py = "\"\"".data ∧
      '?' ∉ render_value (.str []) .Char .Py := by
  refine ⟨rfl, rfl, ?_⟩
  decide

/-- C2 as amended: every target except Python renders `Char` from the
first scalar of the string, substituting `?` when the string is empty;
the Python renderer emits the entire string as a string literal (its
`?` fallback fires only when the value is not a string at all). -/
theorem char_render_first_scalar (lang : Language) (s : Str) :
    (lang ≠ .Py →
        render_value (.str s) .Char lang = ['\'', s.headD '?', '\'']) ∧
      render_value (.str s) .Char .Py = "\"".data ++ s ++ "\"".data := by
  constructor
  · intro h
    cases lang
    · rfl
    · exact absurd rfl h
    · rfl
    · rfl
    · rfl
    · rfl
  · simp [render_value, render_value_py, Json.as_str]

/-- C2 amended witness: the Rust target at the concrete string `"ab"`. -/
theorem char_render_first_scalar_witness :
    render_value (.str "ab".data) .Char .Rs = ['\'', 'a', '\''] :=
  (char_render_first_scalar .Rs "ab".data).1 (by decide)

/-- C9: `render_value` is total (it is a total Lean function over the
whole `Json` × `RustType` × `Language` space), and a value whose JSON
kind does not match the requested type renders exactly as the
documented default does: `0` for the integer types, `0.0` for
`Float64`, `false` for `Bool`, the empty string for `Text`, and the
target's empty-collection literal for `List`. -/
theorem render_value_total_defaults (lang : Language) (v : Json) (t : RustType) :
    (v.as_i64 = none →
        render_value v .I32 lang = render_value (.num (.int 0)) .I32 lang ∧
        render_value v .Usize lang = render_value (.num (.int 0)) .Usize lang) ∧
      (v.as_f64 = none →
        render_value v .F64 lang = render_value (.num (.float 0)) .F64 lang) ∧
      (v.as_bool = none →
        render_value v .Bool lang = render_value (.bool false) .Bool lang) ∧
      (v.as_str = none →
        render_value v .String lang = render_value (.str []) .String lang) ∧
      (v.as_array = none →
        render_value v (.Vec t) lang = render_value (.arr []) (.Vec t) lang) := by
  refine ⟨fun h => ⟨?_, ?_⟩, fun h => ?_, fun h => ?_, fun h => ?_, fun h => ?_⟩ <;>
    cases lang <;>
      simp_all [render_value, render_value_rs, render_value_py, render_value_kt,
        render_value_java, render_value_c, render_value_cpp, renderF64,
        Json.as_i64, Json.as_f64, Json.as_bool, Json.as_str, Json.as_array,
        joinSep]

/-- C9 witness: the concrete non-matching value `null` on the C target
(whose empty-collection literal is a brace pair). -/
theorem render_value_total_defaults_witness :
    render_value .null .I32 .C = render_value (.num (.int 0)) .I32 .C ∧
      render_value .null .F64 .C = render_value (.num (.float 0)) .F64 .C ∧
      render_value .null .Bool .C = render_value (.bool false) .Bool .C ∧
      render_value .null .String .C = render_value (.str []) .String .C ∧
      render_value .null (.Vec .I32) .C = render_value (.arr []) (.Vec .I32) .C :=
  ⟨((render_value_total_defaults .C .null .I32).1 rfl).1,
    (render_value_total_defaults .C .null .I32).2.1 rfl,
    (render_value_total_defaults .C .null .I32).2.2.1 rfl,
    (render_value_total_defaults .C .null .I32).2.2.2.1 rfl,
    (render_value_total_defaults .C .null .I32).2.2.2.2 rfl⟩

/-- C3: generated tests route through the output-parameter assertion
path (asserting the first `MutableRef` parameter's post-call value)
exactly when the classifier holds, i.e. exactly when the return type is
`Unit`/`Void` and at least one parameter is a `MutableRef`; every other
signature shape routes through the return-value assertion path. -/
theorem testgen_routing (sig : FunctionSignature) (test : TestCase)
    (inputs : List (Str × Json)) (h : test.input = .obj inputs) :
    (is_void_with_mut_ref sig = true ↔
        sig.return_type = .Void ∧
          sig.params.any (fun p => isMutRefTy p.ty) = true) ∧
      (is_void_with_mut_ref sig = true →
        ∃ p pre, sig.params.find? (fun p => isMutRefTy p.ty) = some p ∧
          rust_test_body sig test =
            pre ++ ("        assert_eq!(".data ++ p.name ++ ", ".data ++
              render_value test.expected (unwrap_mut_ref p.ty) .Rs ++ ");\n".data)) ∧
      (is_void_with_mut_ref sig = false →
        ∃ pre, rust_test_body sig test =
          pre ++ ("        assert_eq!(result, ".data ++
            render_value test.expected sig.return_type .Rs ++ ");\n".data)) := by
  refine ⟨?_, ?_, ?_⟩
  · simp [is_void_with_mut_ref]
  · intro hv
    have hany : sig.return_type = .Void ∧ ∃ x ∈ sig.params, isMutRefTy x.ty = true := by
      simpa [is_void_with_mut_ref] using hv
    have hsome : (sig.params.find? (fun p => isMutRefTy p.ty)).isSome := by
      rw [List.find?_isSome]
      exact hany.2
    obtain ⟨p, hp⟩ := Option.isSome_iff_exists.mp hsome
    refine ⟨p, catAll (sig.params.map (rustDeclVM inputs)) ++ rustCallVM sig, hp, ?_⟩
    simp [rust_test_body, h, Json.as_object, hv, rustAssertVM, hp]
  · intro hv
    refine ⟨catAll (sig.params.map (rustDeclRet inputs)) ++ rustCallRet sig inputs, ?_⟩
    simp [rust_test_body, h, Json.as_object, hv, rustAssertRet]

/-- C3 witness: a concrete void signature with one mutable-reference
parameter takes the output-parameter assertion path. -/
theorem testgen_routing_witness :
    ∃ p pre,
      (FunctionSignature.mk "f".data [⟨"a".data, .MutRef .I32⟩] .Void).params.find?
          (fun p => isMutRefTy p.ty) = some p ∧
        rust_test_body ⟨"f".data, [⟨"a".data, .MutRef .I32⟩], .Void⟩
            ⟨.obj [("a".data, .num (.int 1))], .num (.int 2)⟩ =
          pre ++ ("        assert_eq!(".data ++ p.name ++ ", ".data ++
            render_value (Json.num (.int 2)) (unwrap_mut_ref p.ty) .Rs ++ ");\n".data) :=
  (testgen_routing ⟨"f".data, [⟨"a".data, .MutRef .I32⟩], .Void⟩
    ⟨.obj [("a".data, .num (.int 1))], .num (.int 2)⟩
    [("a".data, .num (.int 1))] rfl).2.1 (by decide)

/-- The condition the parser's return-type step branches on: the
signature text parses far enough to locate the matching closing
parenthesis, and the trimmed remainder after it does not start with
`->`. -/
def return_clause_absent (s : Str) : Bool :=
  match stripPfx "fn ".data (trim s) with
  | none => false
  | some rest =>
    match idxOf '(' rest with
    | none => false
    | some paren_open =>
      match find_matching_paren rest paren_open with
      | .error _ => false
      | .ok paren_close =>
        !(startsWithStr (trim (rest.drop (paren_close + 1))) "->".data)

/-- C7: for every signature text that parses successfully, if no `->`
return-type clause follows the matching closing parenthesis, the
parsed signature's return type is `Unit`/`Void`. -/
theorem no_arrow_parses_to_void (s : Str) (sig : FunctionSignature)
    (hok : parse_signature s = .ok sig)
    (habs : return_clause_absent s = true) :
    sig.return_type = .Void := by
  simp only [parse_signature] at hok
  unfold return_clause_absent at habs
  split at habs
  · exact absurd habs (by simp)
  · rename_i rest hs
    split at habs
    · exact absurd habs (by simp)
    · rename_i paren_open hp
      split at habs
      · exact absurd habs (by simp)
      · rename_i paren_close hm
        simp only [Bool.not_eq_true'] at habs
        simp only [hs, hp, hm, habs, Bool.false_eq_true, if_false] at hok
        split at hok
        · exact absurd hok (by simp)
        · simp only [Except.ok.injEq] at hok
          rw [← hok]

/-- C7 witness: a concrete signature without a return clause parses to
return type `Void`. -/
theorem no_arrow_parses_to_void_witness :
    (FunctionSignature.mk "g".data [⟨"a".data, .Bool⟩] .Void).return_type = .Void :=
  no_arrow_parses_to_void "fn g(a: bool)".data
    ⟨"g".data, [⟨"a".data, .Bool⟩], .Void⟩ (by rfl) (by decide)

/-- C10: the per-segment loop of `parse_params` silently skips
parameter segments that trim to nothing, so segments produced by
consecutive or trailing commas contribute no parameters and cause no
error; concretely, a trailing comma and a doubled comma parse exactly
as their comma-free forms do. -/
theorem parse_params_skips_empty :
    (∀ parts : List Str,
        parseParamsGo parts =
          parseParamsGo (parts.filter (fun part => !(trim part).isEmpty))) ∧
      parse_signature "fn f(a: i32,)".data =
        .ok ⟨"f".data, [⟨"a".data, .I32⟩], .Void⟩ ∧
      parse_signature "fn g(a: i32,,b: bool)".data =
        .ok ⟨"g".data, [⟨"a".data, .I32⟩, ⟨"b".data, .Bool⟩], .Void⟩ := by
  refine ⟨?_, by rfl, by rfl⟩
  intro parts
  induction parts with
  | nil => rfl
  | cons part rest ih =>
    by_cases hp : (trim part).isEmpty
    · simp [parseParamsGo, hp, ih]
    · simp only [List.filter_cons, hp, Bool.not_false, if_pos]
      simp only [parseParamsGo, hp, Bool.false_eq_true, if_false, ih]

/-- A transcript carries no signal for a target when no line matches
that target's primary summary-line scan and no line matches its
fallback per-test markers — exactly the conditions the corresponding
parser branches on. -/
def no_signal (lang : Language) (combined : Str) : Bool :=
  (linesOf combined).all (fun line =>
    match lang with
    | .Rs =>
      !startsWithStr line "test result:".data &&
        !containsStr line " ... ok".data && !containsStr line " ... FAILED".data
    | .Py =>
      !containsStr line "passed".data && !containsStr line "failed".data &&
        !containsStr line "PASSED".data && !containsStr line "FAILED".data
    | .Kt | .Java =>
      !containsStr line "tests completed".data &&
        !(containsStr (trim line) "()".data &&
          (endsWithStr (trim line) "PASSED".data ||
            endsWithStr (trim line) "FAILED".data))
    | .C | .Cpp =>
      !containsStr line "tests passed".data &&
        !containsStr line ": PASS".data && !containsStr line ": FAIL".data)

/-- A left fold whose step fixes the accumulator on every element of
the list leaves the accumulator unchanged. -/
theorem foldl_fixed {α β : Type} (f : β → α → β) (l : List α) (b : β)
    (h : ∀ a ∈ l, f b a = b) : l.foldl f b = b := by
  induction l with
  | nil => rfl
  | cons x xs ih =>
    rw [List.foldl_cons, h x (List.mem_cons_self x xs)]
    exact ih (fun a ha => h a (List.mem_cons_of_mem x ha))

/-- C5: for every target, a transcript with neither a recognized
summary line nor any per-test marker normalizes to the degenerate
summary `{passed 0, failed 0, total 0}` successfully — never to a
parse failure. -/
theorem no_signal_parses_to_zero (lang : Language) (combined : Str)
    (h : no_signal lang combined = true) :
    parse_output lang combined = .ok ⟨0, 0, 0, combined⟩ := by
  simp only [no_signal, List.all_eq_true] at h
  cases lang
  case Rs =>
    have hfind : (linesOf combined).find?
        (fun l => startsWithStr l "test result:".data) = none := by
      rw [List.find?_eq_none]
      intro l hl
      have hline := h l hl
      simp only [Bool.and_eq_true, Bool.not_eq_true'] at hline
      simp [hline.1.1]
    have hstep : ∀ l ∈ linesOf combined, rustFallbackStep (0 : Nat × Nat) l = 0 := by
      intro l hl
      have hline := h l hl
      simp only [Bool.and_eq_true, Bool.not_eq_true'] at hline
      simp [rustFallbackStep, hline.1.2, hline.2]
    simp [parse_output, parse_rust_output, hfind,
      foldl_fixed rustFallbackStep (linesOf combined) 0 hstep]
  case Py =>
    have hprim : ∀ l ∈ linesOf combined, scanPytestLine (0 : Nat × Nat) l = 0 := by
      intro l hl
      have hline := h l hl
      simp only [Bool.and_eq_true, Bool.not_eq_true'] at hline
      simp [scanPytestLine, hline.1.1.1, hline.1.1.2]
    have hstep : ∀ l ∈ linesOf combined, pytestFallbackStep (0 : Nat × Nat) l = 0 := by
      intro l hl
      have hline := h l hl
      simp only [Bool.and_eq_true, Bool.not_eq_true'] at hline
      simp [pytestFallbackStep, hline.1.2, hline.2]
    simp [parse_output, parse_pytest_output,
      foldl_fixed scanPytestLine (linesOf combined) 0 hprim,
      foldl_fixed pytestFallbackStep (linesOf combined) 0 hstep]
  case Kt | Java =>
    have hfind : (linesOf combined).find?
        (fun l => containsStr l "tests completed".data) = none := by
      rw [List.find?_eq_none]
      intro l hl
      have hline := h l hl
      simp only [Bool.and_eq_true, Bool.not_eq_true'] at hline
      simp [hline.1]
    have hstep : ∀ l ∈ linesOf combined, gradleFallbackStep (0 : Nat × Nat) l = 0 := by
      intro l hl
      have hline := h l hl
      simp only [Bool.and_eq_true, Bool.not_eq_true'] at hline
      have hmk := hline.2
      by_cases hc : containsStr (trim l) "()".data = true
      · rw [hc, Bool.true_and] at hmk
        simp only [Bool.or_eq_false_iff] at hmk
        simp [gradleFallbackStep, hc, hmk.1, hmk.2]
      · simp [gradleFallbackStep, hc]
    simp [parse_output, parse_gradle_output, hfind,
      foldl_fixed gradleFallbackStep (linesOf combined) 0 hstep]
  case C | Cpp =>
    have hfind : (linesOf combined).find?
        (fun l => containsStr l "tests passed".data) = none := by
      rw [List.find?_eq_none]
      intro l hl
      have hline := h l hl
      simp only [Bool.and_eq_true, Bool.not_eq_true'] at hline
      simp [hline.1]
    have hstep : ∀ l ∈ linesOf combined, cFallbackStep (0 : Nat × Nat) l = 0 := by
      intro l hl
      have hline := h l hl
      simp only [Bool.and_eq_true, Bool.not_eq_true'] at hline
      simp [cFallbackStep, hline.1.2, hline.2]
    simp [parse_output, parse_c_output, hfind,
      foldl_fixed cFallbackStep (linesOf combined) 0 hstep]

/-- C5 witness: a concrete compiler-noise transcript on the Rust
target. -/
theorem no_signal_parses_to_zero_witness :
    parse_output .Rs "Compiling codle v0.1.0\nwarning: unused variable".data =
      .ok ⟨0, 0, 0, "Compiling codle v0.1.0\nwarning: unused variable".data⟩ :=
  no_signal_parses_to_zero .Rs
    "Compiling codle v0.1.0\nwarning: unused variable".data (by decide)

/-- C1 counterexample: on the Gradle-family transcript
`"2 tests completed, 5 failed"` the normalizer trusts the tool-reported
total (`2`) and saturates `passed` to `0`, so `total ≠ passed + failed`
and `total` *is* taken from the tool's own reported total. -/
theorem summary_total_counterexample :
    parse_output .Kt "2 tests completed, 5 failed".data =
        .ok ⟨0, 5, 2, "2 tests completed, 5 failed".data⟩ ∧
      (2 : Nat) ≠ 0 + 5 := by
  exact ⟨by rfl, by decide⟩

/-- C1 as amended: the Rust, pytest and C/C++ parsers build
`total = passed + failed` by construction; the Gradle-family parser's
primary path instead takes `total` from the tool-reported
`N tests completed` line and derives `passed = total - failed`
(saturating), so for it the invariant holds exactly when the reported
failed count does not exceed the reported total — otherwise `passed`
saturates to `0` and `total < failed`. -/
theorem summary_total_consistency (lang : Language) (combined : Str)
    (s : TestSummary) (h : parse_output lang combined = .ok s) :
    s.total = s.passed + s.failed ∨
      ((lang = .Kt ∨ lang = .Java) ∧ s.passed = 0 ∧ s.total < s.failed) := by
  cases lang
  case Rs =>
    simp only [parse_output, parse_rust_output, Except.ok.injEq] at h
    left
    rw [← h]
  case Py =>
    simp only [parse_output, parse_pytest_output, Except.ok.injEq] at h
    left
    rw [← h]
  case C =>
    simp only [parse_output, parse_c_output, Except.ok.injEq] at h
    left
    rw [← h]
  case Cpp =>
    simp only [parse_output, parse_c_output, Except.ok.injEq] at h
    left
    rw [← h]
  case Kt =>
    simp only [parse_output, parse_gradle_output] at h
    split at h
    · simp only [Except.ok.injEq] at h
      left
      rw [← h]
    · simp only [Except.ok.injEq] at h
      rw [← h]
      rcases le_or_lt
          ((match (linesOf combined).find?
              (fun l => containsStr l "tests completed".data) with
            | some line => scanGradleSummary line
            | none => (0, 0)).2)
          ((match (linesOf combined).find?
              (fun l => containsStr l "tests completed".data) with
            | some line => scanGradleSummary line
            | none => (0, 0)).1) with hle | hlt
      · left
        exact (Nat.sub_add_cancel hle).symm
      · right
        exact ⟨Or.inl rfl, Nat.sub_eq_zero_of_le (Nat.le_of_lt hlt), hlt⟩
  case Java =>
    simp only [parse_output, parse_gradle_output] at h
    split at h
    · simp only [Except.ok.injEq] at h
      left
      rw [← h]
    · simp only [Except.ok.injEq] at h
      rw [← h]
      rcases le_or_lt
          ((match (linesOf combined).find?
              (fun l => containsStr l "tests completed".data) with
            | some line => scanGradleSummary line
            | none => (0, 0)).2)
          ((match (linesOf combined).find?
              (fun l => containsStr l "tests completed".data) with
            | some line => scanGradleSummary line
            | none => (0, 0)).1) with hle | hlt
      · left
        exact (Nat.sub_add_cancel hle).symm
      · right
        exact ⟨Or.inr rfl, Nat.sub_eq_zero_of_le (Nat.le_of_lt hlt), hlt⟩

/-- C1 amended witness: a concrete Rust transcript, where the summary's
total is the sum of its passed and failed counts. -/
theorem summary_total_consistency_witness :
    (TestSummary.mk 3 1 4 "test result: ok. 3 passed; 1 failed; 0 ignored".data).total =
        (TestSummary.mk 3 1 4 "test result: ok. 3 passed; 1 failed; 0 ignored".data).passed +
          (TestSummary.mk 3 1 4 "test result: ok. 3 passed; 1 failed; 0 ignored".data).failed ∨
      ((Language.Rs = .Kt ∨ Language.Rs = .Java) ∧
        (TestSummary.mk 3 1 4 "test result: ok. 3 passed; 1 failed; 0 ignored".data).passed = 0 ∧
        (TestSummary.mk 3 1 4 "test result: ok. 3 passed; 1 failed; 0 ignored".data).total <
          (TestSummary.mk 3 1 4 "test result: ok. 3 passed; 1 failed; 0 ignored".data).failed) :=
  summary_total_consistency .Rs "test result: ok. 3 passed; 1 failed; 0 ignored".data
    ⟨3, 1, 4, "test result: ok. 3 passed; 1 failed; 0 ignored".data⟩ (by rfl)

end Codle
